import Mathlib

/-!
Shallow embedding of the request-validation and command-dispatch layer of
the Upstash Redis server (`src/app.js` in the repository), together with
theorems checking the specification's claims about it.

The embedding mirrors the Hono application built by `createApp`:
the bearer-auth middleware registration, the `POST /` single-command
handler, the `POST /pipeline` handler, and the `app.onError` mapper.
The Redis client (`ioredis`) is an external collaborator and is modelled
as an oracle: a record of functions giving the outcome of a single
`redis.call` and of a batched `pipeline.exec`.  To reason about side
effects, every handler also returns the list of store invocations it
performed.
-/

/-- JSON values, as decoded from a request body or produced in a response. -/
inductive JValue where
  | null : JValue
  | bool : Bool → JValue
  | num : Int → JValue
  | str : String → JValue
  | arr : List JValue → JValue
  | obj : List (String × JValue) → JValue

/-- A command as handed to the store client: `command[0]` and `command.slice(1)`
(the JS handler spreads the decoded array into `redis.call` / `pipeline.call`). -/
abbrev Cmd := JValue × List JValue

/-- Outcome of one command inside an `ioredis` pipeline result list: the JS
value is a pair `[error, result]`; the first component is the error's message
when the error is non-null. -/
abbrev PipeOutcome := Option String × JValue

/-- Invocations of the store client observed during one request, used to state
which paths reach the store.  `redis.call` is one `single` entry; the
build-then-`exec` of a pipeline is one `batch` entry carrying all commands in
submission order. -/
inductive StoreCall where
  | single : JValue → List JValue → StoreCall
  | batch : List Cmd → StoreCall

/-- The store client oracle (external collaborator `ioredis`).
`call` models `await redis.call(...)`: a result value, or a thrown fault whose
message is the string.  `pipelineExec` models `await redis.pipeline()...exec()`:
`Except.error m` is a fault thrown out of the whole attempt, `Except.ok none`
is `exec` resolving to `null`, and `Except.ok (some l)` is the per-command
outcome list. -/
structure Redis where
  call : JValue → List JValue → Except String JValue
  pipelineExec : List Cmd → Except String (Option (List PipeOutcome))

/-- A response body: a JSON document (`c.json`) or plain text (`c.text`). -/
inductive RespBody where
  | json : JValue → RespBody
  | text : String → RespBody

/-- An HTTP response: status code and body. -/
structure HttpResponse where
  status : Nat
  body : RespBody

/-- The `{result: v}` envelope. -/
def jRes (v : JValue) : JValue :=
  .obj [("result", v)]

/-- The `{error: m}` envelope. -/
def jErr (m : String) : JValue :=
  .obj [("error", .str m)]

/-- A JSON response `c.json(v, status)`. -/
def jsonResp (status : Nat) (v : JValue) : HttpResponse :=
  ⟨status, .json v⟩

/-- The `POST /` handler of `createApp`: `body` is the result of awaiting
`c.req.json()` (`none` when decoding threw).  Returns the response together
with the store invocations performed. -/
def postRoot (redis : Redis) (body : Option JValue) :
    HttpResponse × List StoreCall :=
  match body with
  | none => (jsonResp 400 (jErr "Invalid JSON body"), [])
  | some b =>
    match b with
    | .arr cmds =>
      match cmds with
      | [] => (jsonResp 400 (jErr "Command array cannot be empty"), [])
      | name :: args =>
        match redis.call name args with
        | .ok v => (jsonResp 200 (jRes v), [.single name args])
        | .error m =>
          (jsonResp 500 (jErr ("Failed to execute Redis command: " ++ m)),
            [.single name args])
    | _ =>
      (jsonResp 400
        (jErr "Request body must be an array of command and arguments"), [])

/-- The per-element validation loop of the `POST /pipeline` handler:
`for (let i = 0; i < body.length; i++) { ... }`, started at index `i`.
Returns the 400 response of the first offending element, or `none` when all
elements are non-empty arrays. -/
def validateCommands : List JValue → Nat → Option HttpResponse
  | [], _ => none
  | c :: rest, i =>
    match c with
    | .arr l =>
      match l with
      | [] =>
        some (jsonResp 400
          (jErr ("Command at index " ++ toString i ++ " cannot be empty")))
      | _ :: _ => validateCommands rest (i + 1)
    | _ =>
      some (jsonResp 400
        (jErr ("Command at index " ++ toString i ++ " must be an array")))

/-- `pipeline.call(command[0], ...command.slice(1))` applied to one decoded
command.  The handler only reaches this after validation has established that
the element is a non-empty array, so the other branches are dead. -/
def callArgs : JValue → Cmd
  | .arr (name :: args) => (name, args)
  | .arr [] => (.null, [])
  | v => (v, [])

/-- Mapping one `ioredis` pipeline outcome `[error, result]` to the Upstash
envelope: `{error: error.message}` when the error is non-null, `{result}`
otherwise (the body of `results.map` in the handler). -/
def mapOutcome : PipeOutcome → JValue
  | (some m, _) => jErr m
  | (none, r) => jRes r

/-- The `POST /pipeline` handler of `createApp`: `body` is the result of
awaiting `c.req.json()` (`none` when decoding threw).  Returns the response
together with the store invocations performed. -/
def postPipeline (redis : Redis) (body : Option JValue) :
    HttpResponse × List StoreCall :=
  match body with
  | none => (jsonResp 400 (jErr "Invalid JSON body"), [])
  | some b =>
    match b with
    | .arr cmds =>
      match cmds with
      | [] => (jsonResp 400 (jErr "Pipeline cannot be empty"), [])
      | _ :: _ =>
        match validateCommands cmds 0 with
        | some resp => (resp, [])
        | none =>
          let pipe := cmds.map callArgs
          match redis.pipelineExec pipe with
          | .error m =>
            (jsonResp 500 (jErr ("Failed to execute pipeline: " ++ m)),
              [.batch pipe])
          | .ok none =>
            (jsonResp 500 (jErr "Pipeline execution returned no results"),
              [.batch pipe])
          | .ok (some results) =>
            (jsonResp 200 (.arr (results.map mapOutcome)), [.batch pipe])
    | _ => (jsonResp 400 (jErr "Request body must be an array of commands"), [])

/-- The error object reaching `app.onError`: `status` is `err.status` when
`typeof err.status === "number"`, `res` is `err.res` when present, and
`message` is the fault's message (which `onError` only logs, never returns). -/
structure AppError where
  status : Option Nat
  res : Option HttpResponse
  message : String

/-- The `app.onError` handler: re-emit `err.res` when `err.status` is a number
and `err.res` is present, otherwise `c.text("Unauthorized", err.status)`;
for any other fault, `{error: "Internal server error"}` at 500. -/
def onError (err : AppError) : HttpResponse :=
  match err.status with
  | some s =>
    match err.res with
    | some r => r
    | none => ⟨s, .text "Unauthorized"⟩
  | none => jsonResp 500 (jErr "Internal server error")

/-- An incoming HTTP request as the app sees it: method, path, the
`Authorization` header, and the result of decoding the JSON body (`none` when
`c.req.json()` throws). -/
structure Request where
  method : String
  path : String
  auth : Option String
  body : Option JValue

/-- Modelled from the spec: the external bearer-auth collaborator
(`hono/bearer-auth`) is a pass/fail gate comparing the request's bearer
credential to the configured secret; the middleware passes exactly when the
`Authorization` header is `Bearer <token>`. -/
def bearerAuthPasses (token : String) (req : Request) : Bool :=
  req.auth == some ("Bearer " ++ token)

/-- Modelled from the spec: the rejection raised by the bearer-auth
collaborator on a missing or incorrect credential, an HTTP exception with
status 401 carrying its own `Unauthorized` response. -/
def bearerAuthRejection : AppError :=
  ⟨some 401, some ⟨401, .text "Unauthorized"⟩, "Unauthorized"⟩

/-- Hono route/middleware path matching for a pattern without wildcards:
the pattern matches only the exact path.  `app.use("/", mw)` therefore
applies `mw` to requests for `/` only; a pattern such as `"*"` or `"/*"`
would be needed to cover `/pipeline`. -/
def honoUseMatches (pattern path : String) : Bool :=
  pattern == path

/-- The whole app built by `createApp` applied to one request, mirroring
Hono's dispatch: the middleware registered by `app.use("/", bearerAuth(...))`
runs first on requests whose path matches `"/"` and raises
`bearerAuthRejection` (handled by `app.onError`) when the credential check
fails; then the `POST /` and `POST /pipeline` routes; anything else is Hono's
404.  Returns the response and the store invocations performed. -/
def fetchApp (token : String) (redis : Redis) (req : Request) :
    HttpResponse × List StoreCall :=
  if honoUseMatches "/" req.path && !bearerAuthPasses token req then
    (onError bearerAuthRejection, [])
  else if req.method == "POST" && req.path == "/" then
    postRoot redis req.body
  else if req.method == "POST" && req.path == "/pipeline" then
    postPipeline redis req.body
  else
    (⟨404, .text "404 Not Found"⟩, [])

/-- A decoded single-mode body that passes the `POST /` validation rules:
an array with at least one element. -/
def singleBodyValid : Option JValue → Bool
  | some (.arr (_ :: _)) => true
  | _ => false

/-- A decoded element of a pipeline body that passes per-element validation:
a non-empty array. -/
def cmdValid : JValue → Bool
  | .arr (_ :: _) => true
  | _ => false

/-- A decoded pipeline-mode body that passes the `POST /pipeline` validation
rules: a non-empty array all of whose elements are non-empty arrays. -/
def pipelineBodyValid : Option JValue → Bool
  | some (.arr cmds) => !cmds.isEmpty && cmds.all cmdValid
  | _ => false

/-- A store oracle whose single calls return `"PONG"` and whose batched calls
return one `OK` result per submitted command. -/
def redisOk : Redis where
  call := fun _ _ => .ok (.str "PONG")
  pipelineExec := fun cmds => .ok (some (cmds.map fun _ => (none, .str "OK")))

/-- A store oracle that faults on every invocation with the message `boom`. -/
def redisBoom : Redis where
  call := fun _ _ => .error "boom"
  pipelineExec := fun _ => .error "boom"

/-- A store oracle whose batched execution resolves to `null`. -/
def redisNullPipe : Redis where
  call := fun _ _ => .ok .null
  pipelineExec := fun _ => .ok none

/-- Helper: a `cmdValid` element is exactly a non-empty array. -/
theorem cmdValid_iff (c : JValue) :
    cmdValid c = true ↔ ∃ name args, c = .arr (name :: args) := by
  cases c with
  | arr l =>
    cases l with
    | nil => simp [cmdValid]
    | cons x xs => simp [cmdValid]
  | null => simp [cmdValid]
  | bool b => simp [cmdValid]
  | num n => simp [cmdValid]
  | str s => simp [cmdValid]
  | obj o => simp [cmdValid]

/-- Helper: the validation loop accepts exactly the lists whose elements are
all non-empty arrays, whatever the starting index. -/
theorem validateCommands_eq_none_iff (cmds : List JValue) (k : Nat) :
    validateCommands cmds k = none ↔ ∀ c ∈ cmds, cmdValid c = true := by
  induction cmds generalizing k with
  | nil => simp [validateCommands]
  | cons c rest ih =>
    cases c with
    | arr l =>
      cases l with
      | nil => simp [validateCommands, cmdValid]
      | cons x xs => simp [validateCommands, cmdValid, ih]
    | null => simp [validateCommands, cmdValid]
    | bool b => simp [validateCommands, cmdValid]
    | num n => simp [validateCommands, cmdValid]
    | str s => simp [validateCommands, cmdValid]
    | obj o => simp [validateCommands, cmdValid]

/-- Helper: whenever the validation loop rejects, it rejects with a 400 JSON
error response. -/
theorem validateCommands_some_shape (cmds : List JValue) (k : Nat)
    (r : HttpResponse) (h : validateCommands cmds k = some r) :
    ∃ m, r = jsonResp 400 (jErr m) := by
  induction cmds generalizing k with
  | nil => simp [validateCommands] at h
  | cons c rest ih =>
    cases c with
    | arr l =>
      cases l with
      | nil =>
        simp [validateCommands] at h
        exact ⟨_, h.symm⟩
      | cons x xs =>
        simp [validateCommands] at h
        exact ih (k + 1) h
    | null =>
      simp [validateCommands] at h
      exact ⟨_, h.symm⟩
    | bool b =>
      simp [validateCommands] at h
      exact ⟨_, h.symm⟩
    | num n =>
      simp [validateCommands] at h
      exact ⟨_, h.symm⟩
    | str s =>
      simp [validateCommands] at h
      exact ⟨_, h.symm⟩
    | obj o =>
      simp [validateCommands] at h
      exact ⟨_, h.symm⟩

/-- Helper: the validation loop reports the first non-array element, at the
index counted from the starting offset. -/
theorem validateCommands_first_nonarray (pre : List JValue) (c : JValue)
    (rest : List JValue) (k : Nat) (hpre : ∀ x ∈ pre, cmdValid x = true)
    (hc : ∀ l, c ≠ .arr l) :
    validateCommands (pre ++ c :: rest) k =
      some (jsonResp 400
        (jErr ("Command at index " ++ toString (k + pre.length) ++
          " must be an array"))) := by
  induction pre generalizing k with
  | nil =>
    cases c with
    | arr l => exact absurd rfl (hc l)
    | null => simp [validateCommands]
    | bool b => simp [validateCommands]
    | num n => simp [validateCommands]
    | str s => simp [validateCommands]
    | obj o => simp [validateCommands]
  | cons p ps ih =>
    have hp : cmdValid p = true := hpre p (List.mem_cons_self p ps)
    obtain ⟨name, args, rfl⟩ := (cmdValid_iff p).mp hp
    have hrec := ih (k + 1) (fun x hx => hpre x (List.mem_cons_of_mem _ hx))
    have harith : k + 1 + ps.length = k + (ps.length + 1) := by omega
    simpa [validateCommands, harith] using hrec

/-- Helper: the validation loop reports the first empty-array element, at the
index counted from the starting offset. -/
theorem validateCommands_first_empty (pre : List JValue)
    (rest : List JValue) (k : Nat) (hpre : ∀ x ∈ pre, cmdValid x = true) :
    validateCommands (pre ++ .arr [] :: rest) k =
      some (jsonResp 400
        (jErr ("Command at index " ++ toString (k + pre.length) ++
          " cannot be empty"))) := by
  induction pre generalizing k with
  | nil => simp [validateCommands]
  | cons p ps ih =>
    have hp : cmdValid p = true := hpre p (List.mem_cons_self p ps)
    obtain ⟨name, args, rfl⟩ := (cmdValid_iff p).mp hp
    have hrec := ih (k + 1) (fun x hx => hpre x (List.mem_cons_of_mem _ hx))
    have harith : k + 1 + ps.length = k + (ps.length + 1) := by omega
    simpa [validateCommands, harith] using hrec

/-- C3: for `POST /`, the validation rules apply in a fixed order with the
first failure winning: a JSON decode fault yields 400 `Invalid JSON body`;
otherwise a non-array top-level value yields 400
`Request body must be an array of command and arguments`; otherwise an empty
array yields 400 `Command array cannot be empty`; otherwise validation
succeeds and the store is invoked. -/
theorem claim_C3_root_validation_order (redis : Redis) :
    (postRoot redis none = (jsonResp 400 (jErr "Invalid JSON body"), [])) ∧
    (∀ b : JValue, (∀ l, b ≠ .arr l) →
      postRoot redis (some b) =
        (jsonResp 400
          (jErr "Request body must be an array of command and arguments"),
          [])) ∧
    (postRoot redis (some (.arr [])) =
      (jsonResp 400 (jErr "Command array cannot be empty"), [])) ∧
    (∀ name args, ∃ resp,
      postRoot redis (some (.arr (name :: args))) =
        (resp, [.single name args])) := by
  refine ⟨rfl, ?_, rfl, ?_⟩
  · intro b hb
    cases b with
    | arr l => exact absurd rfl (hb l)
    | null => rfl
    | bool x => rfl
    | num x => rfl
    | str x => rfl
    | obj x => rfl
  · intro name args
    cases hcall : redis.call name args with
    | ok v => exact ⟨jsonResp 200 (jRes v), by simp [postRoot, hcall]⟩
    | error m =>
      exact ⟨jsonResp 500 (jErr ("Failed to execute Redis command: " ++ m)),
        by simp [postRoot, hcall]⟩

/-- Witness for C3 at concrete inputs: a decoded object body is rejected with
the single-mode message. -/
theorem claim_C3_witness :
    postRoot redisOk (some (.obj [])) =
      (jsonResp 400
        (jErr "Request body must be an array of command and arguments"),
        []) :=
  (claim_C3_root_validation_order redisOk).2.1 (.obj []) (fun _ h => by cases h)

/-- C5: for a validated single command posted to `/`, a store value yields
200 `{result: v}`; a store fault with message `m` yields 500
`{error: "Failed to execute Redis command: " ++ m}`; and a 400 response is
produced only by the validation rules, never after a store invocation. -/
theorem claim_C5_single_execution (redis : Redis) (name : JValue)
    (args : List JValue) :
    (∀ v, redis.call name args = .ok v →
      postRoot redis (some (.arr (name :: args))) =
        (jsonResp 200 (jRes v), [.single name args])) ∧
    (∀ m, redis.call name args = .error m →
      postRoot redis (some (.arr (name :: args))) =
        (jsonResp 500 (jErr ("Failed to execute Redis command: " ++ m)),
          [.single name args])) ∧
    (∀ body, (postRoot redis body).1.status = 400 →
      (postRoot redis body).2 = []) := by
  refine ⟨?_, ?_, ?_⟩
  · intro v hv
    simp [postRoot, hv]
  · intro m hm
    simp [postRoot, hm]
  · intro body
    match body with
    | none => intro; rfl
    | some (.arr []) => intro; rfl
    | some (.arr (n :: a)) =>
      cases hcall : redis.call n a with
      | ok v => simp [postRoot, hcall, jsonResp]
      | error m => simp [postRoot, hcall, jsonResp]
    | some .null => intro; rfl
    | some (.bool x) => intro; rfl
    | some (.num x) => intro; rfl
    | some (.str x) => intro; rfl
    | some (.obj x) => intro; rfl

/-- Witness for C5 at concrete inputs: `["PING"]` against an oracle answering
`PONG` yields 200 `{result: "PONG"}`. -/
theorem claim_C5_witness :
    postRoot redisOk (some (.arr [.str "PING"])) =
      (jsonResp 200 (jRes (.str "PONG")), [.single (.str "PING") []]) :=
  (claim_C5_single_execution redisOk (.str "PING") []).1 (.str "PONG") rfl

/-- C9: the last-resort error mapper sends any fault without a numeric status
to 500 `{error: "Internal server error"}`; a rejection carrying a numeric
status is re-emitted verbatim when it carries its own response, and otherwise
becomes a plain-text `Unauthorized` at that status; and the output never
depends on the fault's message, so no internal details can leak. -/
theorem claim_C9_onError_mapping (err : AppError) :
    (err.status = none →
      onError err = jsonResp 500 (jErr "Internal server error")) ∧
    (∀ s r, err.status = some s → err.res = some r → onError err = r) ∧
    (∀ s, err.status = some s → err.res = none →
      onError err = ⟨s, .text "Unauthorized"⟩) ∧
    (∀ e : AppError, err.status = e.status → err.res = e.res →
      onError err = onError e) := by
  refine ⟨?_, ?_, ?_, ?_⟩
  · intro h
    simp [onError, h]
  · intro s r hs hr
    simp [onError, hs, hr]
  · intro s hs hr
    simp [onError, hs, hr]
  · intro e hs hr
    simp [onError, hs, hr]

/-- Witness for C9 at concrete inputs: a plain fault carrying only a message
maps to the generic 500 envelope. -/
theorem claim_C9_witness :
    onError ⟨none, none, "kaboom at app.js:42"⟩ =
      jsonResp 500 (jErr "Internal server error") :=
  (claim_C9_onError_mapping ⟨none, none, "kaboom at app.js:42"⟩).1 rfl

/-- C1 (failing input): the bearer-auth middleware is registered with
`app.use("/", ...)`, whose wildcard-free pattern matches only the exact path
`/`.  A `POST /` without a credential is answered 401 with no store call, but
the same unauthenticated request to `/pipeline` bypasses the gate entirely:
the body is decoded, validated and dispatched to the store, and the response
is 200 — contradicting the claim that every request to either endpoint
without a matching bearer credential yields 401 before any core logic runs. -/
theorem claim_C1_pipeline_auth_bypass :
    (fetchApp "secret" redisOk ⟨"POST", "/", none, some (.arr [.str "PING"])⟩ =
      (⟨401, .text "Unauthorized"⟩, [])) ∧
    (fetchApp "secret" redisOk
        ⟨"POST", "/pipeline", none, some (.arr [.arr [.str "PING"]])⟩ =
      (jsonResp 200 (.arr [jRes (.str "OK")]),
        [.batch [(.str "PING", [])]])) :=
  ⟨rfl, rfl⟩

/-- C4: for a non-empty pipeline body, elements are checked at ascending
indices and the first offending index wins: with all elements before the
offender valid, a non-array element at index `i` yields 400
`Command at index i must be an array` and an empty-array element yields 400
`Command at index i cannot be empty`, with no store invocation. -/
theorem claim_C4_pipeline_first_invalid_index (redis : Redis)
    (pre rest : List JValue) (c : JValue)
    (hpre : ∀ x ∈ pre, cmdValid x = true) :
    ((∀ l, c ≠ .arr l) →
      postPipeline redis (some (.arr (pre ++ c :: rest))) =
        (jsonResp 400 (jErr ("Command at index " ++ toString pre.length ++
          " must be an array")), [])) ∧
    (c = .arr [] →
      postPipeline redis (some (.arr (pre ++ c :: rest))) =
        (jsonResp 400 (jErr ("Command at index " ++ toString pre.length ++
          " cannot be empty")), [])) := by
  have hne : pre ++ c :: rest ≠ [] := by simp
  obtain ⟨x, xs, hxx⟩ := List.exists_cons_of_ne_nil hne
  constructor
  · intro hc
    have hv := validateCommands_first_nonarray pre c rest 0 hpre hc
    rw [hxx] at hv ⊢
    simp [postPipeline, hv]
  · intro hc
    subst hc
    have hv := validateCommands_first_empty pre rest 0 hpre
    rw [hxx] at hv ⊢
    simp [postPipeline, hv]

/-- Witness for C4 at concrete inputs: in `[["PING"], "bad"]` the string at
index 1 is reported as the first offender. -/
theorem claim_C4_witness :
    postPipeline redisOk (some (.arr [.arr [.str "PING"], .str "bad"])) =
      (jsonResp 400 (jErr "Command at index 1 must be an array"), []) :=
  (claim_C4_pipeline_first_invalid_index redisOk [.arr [.str "PING"]] []
    (.str "bad") (by decide)).1 (fun _ h => by cases h)

/-- C6: for a validated pipeline, a batch execution resolving to no outcome
list yields 500 `Pipeline execution returned no results` with no per-command
outcomes, and an exception escaping the whole attempt with message `m` yields
500 `Failed to execute pipeline: m`. -/
theorem claim_C6_pipeline_total_failure (redis : Redis) (cmds : List JValue)
    (hne : cmds ≠ []) (hval : ∀ c ∈ cmds, cmdValid c = true) :
    (redis.pipelineExec (cmds.map callArgs) = .ok none →
      postPipeline redis (some (.arr cmds)) =
        (jsonResp 500 (jErr "Pipeline execution returned no results"),
          [.batch (cmds.map callArgs)])) ∧
    (∀ m, redis.pipelineExec (cmds.map callArgs) = .error m →
      postPipeline redis (some (.arr cmds)) =
        (jsonResp 500 (jErr ("Failed to execute pipeline: " ++ m)),
          [.batch (cmds.map callArgs)])) := by
  obtain ⟨x, xs, rfl⟩ := List.exists_cons_of_ne_nil hne
  have hv : validateCommands (x :: xs) 0 = none :=
    (validateCommands_eq_none_iff _ 0).mpr hval
  constructor
  · intro hexec
    simp only [List.map_cons] at hexec
    simp [postPipeline, hv, hexec]
  · intro m hexec
    simp only [List.map_cons] at hexec
    simp [postPipeline, hv, hexec]

/-- Witness for C6 at concrete inputs: a store whose batch execution resolves
to `null` produces the no-results 500. -/
theorem claim_C6_witness :
    postPipeline redisNullPipe (some (.arr [.arr [.str "PING"]])) =
      (jsonResp 500 (jErr "Pipeline execution returned no results"),
        [.batch [(.str "PING", [])]]) :=
  (claim_C6_pipeline_total_failure redisNullPipe [.arr [.str "PING"]]
    (List.cons_ne_nil _ _) (by decide)).1 rfl

/-- C2: for a valid non-empty pipeline whose batch invocation succeeds with an
outcome list of matching length (the store contract), the response is 200 with
a JSON array of one entry per command; entry `i` is `{error: m}` exactly when
outcome `i` carries a fault message `m` and `{result: v}` otherwise, so entry
`i` depends only on outcome `i` and one command's fault never alters a
sibling's entry; the two envelopes are always distinct, so no entry carries
both tags. -/
theorem claim_C2_pipeline_per_command_mapping (redis : Redis)
    (cmds : List JValue) (outcomes : List PipeOutcome) (hne : cmds ≠ [])
    (hval : ∀ c ∈ cmds, cmdValid c = true)
    (hexec : redis.pipelineExec (cmds.map callArgs) = .ok (some outcomes))
    (hlen : outcomes.length = cmds.length) :
    ∃ entries : List JValue,
      postPipeline redis (some (.arr cmds)) =
        (jsonResp 200 (.arr entries), [.batch (cmds.map callArgs)]) ∧
      entries.length = cmds.length ∧
      (∀ (i : Nat) m r, outcomes[i]? = some (some m, r) →
        entries[i]? = some (jErr m)) ∧
      (∀ (i : Nat) v, outcomes[i]? = some (none, v) →
        entries[i]? = some (jRes v)) ∧
      (∀ m v, jErr m ≠ jRes v) := by
  obtain ⟨x, xs, rfl⟩ := List.exists_cons_of_ne_nil hne
  have hv : validateCommands (x :: xs) 0 = none :=
    (validateCommands_eq_none_iff _ 0).mpr hval
  simp only [List.map_cons] at hexec
  refine ⟨outcomes.map mapOutcome, ?_, ?_, ?_, ?_, ?_⟩
  · simp [postPipeline, hv, hexec]
  · simpa using hlen
  · intro i m r h
    simp [List.getElem?_map, h, mapOutcome]
  · intro i v h
    simp [List.getElem?_map, h, mapOutcome]
  · intro m v h
    simp only [jErr, jRes] at h
    injection h with h1
    injection h1 with h2 h3
    injection h2 with h4 h5
    exact absurd h4 (by decide)

/-- Witness for C2 at concrete inputs: one `PING` command against an oracle
answering `OK` per command. -/
theorem claim_C2_witness :
    ∃ entries : List JValue,
      postPipeline redisOk (some (.arr [.arr [.str "PING"]])) =
        (jsonResp 200 (.arr entries),
          [.batch ([JValue.arr [.str "PING"]].map callArgs)]) ∧
      entries.length = [JValue.arr [.str "PING"]].length ∧
      (∀ (i : Nat) m r, ([((none : Option String), JValue.str "OK")])[i]? =
          some (some m, r) → entries[i]? = some (jErr m)) ∧
      (∀ (i : Nat) v, ([((none : Option String), JValue.str "OK")])[i]? =
          some (none, v) → entries[i]? = some (jRes v)) ∧
      (∀ m v, jErr m ≠ jRes v) :=
  claim_C2_pipeline_per_command_mapping redisOk [.arr [.str "PING"]]
    [(none, .str "OK")] (List.cons_ne_nil _ _) (by decide) rfl rfl

/-- C7: a pipeline that passes validation and whose batch invocation yields an
outcome list is answered 200 whatever the individual outcomes; any non-200
pipeline response is either a 400 produced without touching the store or a
500 carrying one of the two total-failure bodies. -/
theorem claim_C7_pipeline_overall_status (redis : Redis)
    (body : Option JValue) :
    (∀ cmds outcomes, body = some (.arr cmds) → cmds ≠ [] →
      (∀ c ∈ cmds, cmdValid c = true) →
      redis.pipelineExec (cmds.map callArgs) = .ok (some outcomes) →
      (postPipeline redis body).1.status = 200) ∧
    ((postPipeline redis body).1.status ≠ 200 →
      ((postPipeline redis body).1.status = 400 ∧
        (postPipeline redis body).2 = []) ∨
      ((postPipeline redis body).1.status = 500 ∧
        ((postPipeline redis body).1.body =
            .json (jErr "Pipeline execution returned no results") ∨
          ∃ m, (postPipeline redis body).1.body =
            .json (jErr ("Failed to execute pipeline: " ++ m))))) := by
  constructor
  · intro cmds outcomes hbody hne hval hexec
    subst hbody
    obtain ⟨x, xs, rfl⟩ := List.exists_cons_of_ne_nil hne
    have hv : validateCommands (x :: xs) 0 = none :=
      (validateCommands_eq_none_iff _ 0).mpr hval
    simp only [List.map_cons] at hexec
    simp [postPipeline, hv, hexec, jsonResp]
  · intro hstat
    match hb : body with
    | none => exact Or.inl ⟨rfl, rfl⟩
    | some .null => exact Or.inl ⟨rfl, rfl⟩
    | some (.bool b) => exact Or.inl ⟨rfl, rfl⟩
    | some (.num n) => exact Or.inl ⟨rfl, rfl⟩
    | some (.str s) => exact Or.inl ⟨rfl, rfl⟩
    | some (.obj o) => exact Or.inl ⟨rfl, rfl⟩
    | some (.arr []) => exact Or.inl ⟨rfl, rfl⟩
    | some (.arr (x :: xs)) =>
      cases hvc : validateCommands (x :: xs) 0 with
      | some r =>
        obtain ⟨m, rfl⟩ := validateCommands_some_shape _ _ _ hvc
        exact Or.inl ⟨by simp [postPipeline, hvc, jsonResp],
          by simp [postPipeline, hvc]⟩
      | none =>
        cases hex : redis.pipelineExec ((x :: xs).map callArgs) with
        | error m =>
          simp only [List.map_cons] at hex
          refine Or.inr ⟨?_, Or.inr ⟨m, ?_⟩⟩
          · simp [postPipeline, hvc, hex, jsonResp]
          · simp [postPipeline, hvc, hex, jsonResp]
        | ok o =>
          cases o with
          | none =>
            simp only [List.map_cons] at hex
            refine Or.inr ⟨?_, Or.inl ?_⟩
            · simp [postPipeline, hvc, hex, jsonResp]
            · simp [postPipeline, hvc, hex, jsonResp]
          | some results =>
            simp only [List.map_cons] at hex
            exact absurd (by simp [postPipeline, hvc, hex, jsonResp]) hstat

/-- Witness for C7 at concrete inputs: a one-command pipeline against the
always-succeeding oracle is answered 200. -/
theorem claim_C7_witness :
    (postPipeline redisOk (some (.arr [.arr [.str "PING"]]))).1.status = 200 :=
  (claim_C7_pipeline_overall_status redisOk
      (some (.arr [.arr [.str "PING"]]))).1
    [.arr [.str "PING"]] [(none, .str "OK")] rfl (List.cons_ne_nil _ _)
    (by decide) rfl

/-- C8: a validated pipeline performs exactly one batch store invocation,
carrying all commands in their original order (element `i` of the batch is
`command[i][0]` with `command[i].slice(1)`), and never issues any
single-command invocation. -/
theorem claim_C8_one_batch_invocation (redis : Redis) (cmds : List JValue)
    (hne : cmds ≠ []) (hval : ∀ c ∈ cmds, cmdValid c = true) :
    (postPipeline redis (some (.arr cmds))).2 =
      [.batch (cmds.map callArgs)] ∧
    (∀ (i : Nat), (cmds.map callArgs)[i]? = (cmds[i]?).map callArgs) ∧
    (∀ name args,
      StoreCall.single name args ∉ (postPipeline redis (some (.arr cmds))).2) := by
  obtain ⟨x, xs, rfl⟩ := List.exists_cons_of_ne_nil hne
  have hv : validateCommands (x :: xs) 0 = none :=
    (validateCommands_eq_none_iff _ 0).mpr hval
  have htrace : (postPipeline redis (some (.arr (x :: xs)))).2 =
      [.batch ((x :: xs).map callArgs)] := by
    cases hex : redis.pipelineExec ((x :: xs).map callArgs) with
    | error m =>
      simp only [List.map_cons] at hex
      simp [postPipeline, hv, hex]
    | ok o =>
      cases o with
      | none =>
        simp only [List.map_cons] at hex
        simp [postPipeline, hv, hex]
      | some results =>
        simp only [List.map_cons] at hex
        simp [postPipeline, hv, hex]
  refine ⟨htrace, ?_, ?_⟩
  · intro i
    exact List.getElem?_map callArgs (x :: xs) i
  · intro name args hmem
    rw [htrace] at hmem
    simp at hmem

/-- Witness for C8 at concrete inputs: the one-command pipeline produces the
single batch invocation carrying that command. -/
theorem claim_C8_witness :
    (postPipeline redisOk (some (.arr [.arr [.str "PING"]]))).2 =
      [.batch [(.str "PING", [])]] :=
  (claim_C8_one_batch_invocation redisOk [.arr [.str "PING"]]
    (List.cons_ne_nil _ _) (by decide)).1

/-- C10: a request failing any validation rule, on either endpoint, is
answered 400 with no store invocation at all — not even the commands before a
pipeline's first offending index are dispatched. -/
theorem claim_C10_validation_failure_no_store (redis : Redis)
    (body : Option JValue) :
    (singleBodyValid body = false →
      (postRoot redis body).1.status = 400 ∧ (postRoot redis body).2 = []) ∧
    (pipelineBodyValid body = false →
      (postPipeline redis body).1.status = 400 ∧
        (postPipeline redis body).2 = []) := by
  constructor
  · intro h
    match body with
    | none => exact ⟨rfl, rfl⟩
    | some .null => exact ⟨rfl, rfl⟩
    | some (.bool b) => exact ⟨rfl, rfl⟩
    | some (.num n) => exact ⟨rfl, rfl⟩
    | some (.str s) => exact ⟨rfl, rfl⟩
    | some (.obj o) => exact ⟨rfl, rfl⟩
    | some (.arr []) => exact ⟨rfl, rfl⟩
    | some (.arr (x :: xs)) => simp [singleBodyValid] at h
  · intro h
    match body with
    | none => exact ⟨rfl, rfl⟩
    | some .null => exact ⟨rfl, rfl⟩
    | some (.bool b) => exact ⟨rfl, rfl⟩
    | some (.num n) => exact ⟨rfl, rfl⟩
    | some (.str s) => exact ⟨rfl, rfl⟩
    | some (.obj o) => exact ⟨rfl, rfl⟩
    | some (.arr []) => exact ⟨rfl, rfl⟩
    | some (.arr (x :: xs)) =>
      cases hvc : validateCommands (x :: xs) 0 with
      | some r =>
        obtain ⟨m, rfl⟩ := validateCommands_some_shape _ _ _ hvc
        exact ⟨by simp [postPipeline, hvc, jsonResp],
          by simp [postPipeline, hvc]⟩
      | none =>
        have hall := (validateCommands_eq_none_iff (x :: xs) 0).mp hvc
        have hvalid : pipelineBodyValid (some (.arr (x :: xs))) = true := by
          simp [pipelineBodyValid, List.all_eq_true]
          exact ⟨hall x (List.mem_cons_self x xs),
            fun c hc => hall c (List.mem_cons_of_mem _ hc)⟩
        exact Bool.noConfusion (hvalid.symm.trans h)

/-- Witness for C10 at concrete inputs: a decoded object body fails
validation on both endpoints with no store call. -/
theorem claim_C10_witness :
    ((postRoot redisOk (some (.obj []))).1.status = 400 ∧
      (postRoot redisOk (some (.obj []))).2 = []) ∧
    ((postPipeline redisOk (some (.obj []))).1.status = 400 ∧
      (postPipeline redisOk (some (.obj []))).2 = []) :=
  ⟨(claim_C10_validation_failure_no_store redisOk (some (.obj []))).1 rfl,
    (claim_C10_validation_failure_no_store redisOk (some (.obj []))).2 rfl⟩
